import Mathlib

/-!
Verification of the `gqlopencensus` instrumentation adapter
(`gqlopencensus/options.go`): configuration builder, attribute composers
and the operation-name fallback resolver, embedded shallowly in Lean.
-/

namespace Gqlopencensus

/-- `trace.Attribute` as this package builds it: every attribute produced by
`options.go` comes from `trace.StringAttribute(key, value)`, a string
key/value pair. -/
structure Attribute where
  key : String
  value : String
deriving DecidableEq, Repr

/-- `trace.StringAttribute` of the opencensus library: pairs a key with a
string value. -/
def StringAttribute (key value : String) : Attribute := ⟨key, value⟩

/-- A Go value together with the outcome of `encoding/json.Marshal` on it:
`some s` when marshalling succeeds producing bytes `s`, `none` when it
returns an error (in which case the returned byte slice is nil). Abstract
stand-in for the external `encoding/json` collaborator applied to
`oc.Variables` / `fc.Args`. -/
structure GoValue where
  jsonEncoded : Option String
deriving DecidableEq, Repr

/-- `json.Marshal` on a `GoValue`: the bytes component of the `(bytes, err)`
pair; `none` models the error case, where the bytes are nil. -/
def jsonMarshal (v : GoValue) : Option String := v.jsonEncoded

/-- Go's `string(b)` on a possibly-nil byte slice: a nil slice converts to the
empty string. -/
def goString : Option String → String
  | some s => s
  | none => ""

/-- `graphql.Field`, restricted to the one field read by this package
(`fc.Field.Name`). -/
structure Field where
  Name : String
deriving DecidableEq, Repr

/-- `graphql.FieldContext`, restricted to what `options.go` reads:
`fc.Field` and `fc.Args`. -/
structure FieldContext where
  Field : Field
  Args : GoValue
deriving DecidableEq, Repr

/-- `ast.OperationDefinition`, restricted to what `operationName` reads:
`Name` and `Operation` (the operation kind, a string type in the ast
package with values such as "query", "mutation", "subscription"). -/
structure OperationDefinition where
  Name : String
  Operation : String
deriving DecidableEq, Repr

/-- `graphql.OperationContext`, restricted to what `options.go` reads:
`OperationName`, `RawQuery`, `Variables` and the parsed `Operation` node,
which is a nilable pointer, hence `Option`. -/
structure OperationContext where
  OperationName : String
  RawQuery : String
  Variables : GoValue
  Operation : Option OperationDefinition
deriving DecidableEq, Repr

/-- `FieldAttributer`: a functor producing trace attributes from the field
context. -/
def FieldAttributer : Type := FieldContext → List Attribute

/-- `OperationAttributer`: a functor producing trace attributes from the
operation context. -/
def OperationAttributer : Type := OperationContext → List Attribute

/-- `FieldAttribute(key, value)`: a constant field-scope attributer. -/
def FieldAttribute (key value : String) : FieldAttributer :=
  fun _ => [StringAttribute key value]

/-- `OperationAttribute(key, value)`: a constant operation-scope attributer. -/
def OperationAttribute (key value : String) : OperationAttributer :=
  fun _ => [StringAttribute key value]

/-- The `config` struct: two ordered attributer lists and the only-methods
flag. -/
structure config where
  fieldAttributers : List FieldAttributer
  operationAttributers : List OperationAttributer
  onlyMethods : Bool

/-- `config.fieldAttributes`: appends every registered field attributer's
output, in registration order, into one slice (started empty; the Go code
pre-sizes its capacity to 10, which has no effect on contents). -/
def config.fieldAttributes (c : config) (ctx : FieldContext) : List Attribute :=
  c.fieldAttributers.foldl (fun attrs apply => attrs ++ apply ctx) []

/-- `config.operationAttributes`: same loop over the operation attributers. -/
def config.operationAttributes (c : config) (ctx : OperationContext) : List Attribute :=
  c.operationAttributers.foldl (fun attrs apply => attrs ++ apply ctx) []

/-- `operationName`: the fallback chain deriving an operation's display name.
Mirrors the three sequential statements of the Go function: first the parsed
node's explicit name when the node is non-nil, then (when the name so far is
empty and the node is non-nil) the string form of the node's operation kind,
then (when still empty) the context's raw `OperationName` field. -/
def operationName (ctx : OperationContext) : String :=
  let opName : String :=
    match ctx.Operation with
    | some op => op.Name
    | none => ""
  let opName : String :=
    if opName = "" then
      match ctx.Operation with
      | some op => op.Operation
      | none => opName
    else opName
  if opName = "" then ctx.OperationName else opName

/-- The `Option` type of the package (`func(*config)`): the Go option mutates
the configuration in place; its pure embedding maps a configuration to the
updated configuration. -/
def TracerOption : Type := config → config

/-- `WithFieldAttributes`: appends the given attributers to the field list. -/
def WithFieldAttributes (attributers : List FieldAttributer) : TracerOption :=
  fun c => { c with fieldAttributers := c.fieldAttributers ++ attributers }

/-- `WithOperationAttributes`: appends the given attributers to the operation
list. -/
def WithOperationAttributes (attributers : List OperationAttributer) : TracerOption :=
  fun c => { c with operationAttributers := c.operationAttributers ++ attributers }

/-- The operation attributer appended by `WithDataDog`: emits
`resource.name` with the resolved operation name. -/
def dataDogAttributer : OperationAttributer :=
  fun oc => [StringAttribute "resource.name" (operationName oc)]

/-- `WithDataDog`: appends the DataDog resource-name attributer. -/
def WithDataDog : TracerOption :=
  fun c => { c with operationAttributers := c.operationAttributers ++ [dataDogAttributer] }

/-- The operation attributer appended by `WithRawQuery`: emits `query` with
the raw query text. -/
def rawQueryAttributer : OperationAttributer :=
  fun oc => [StringAttribute "query" oc.RawQuery]

/-- `WithRawQuery`: appends the raw-query attributer. -/
def WithRawQuery : TracerOption :=
  fun c => { c with operationAttributers := c.operationAttributers ++ [rawQueryAttributer] }

/-- The operation attributer appended by `WithVariables`: serializes
`oc.Variables` with `json.Marshal`, discards the error (`variables, _ :=`)
and emits the bytes as the `variables` attribute; a nil byte slice (the
error case) converts to the empty string. -/
def variablesAttributer : OperationAttributer :=
  fun oc => [StringAttribute "variables" (goString (jsonMarshal oc.Variables))]

/-- `WithVariables`: appends the variables attributer. -/
def WithVariables : TracerOption :=
  fun c => { c with operationAttributers := c.operationAttributers ++ [variablesAttributer] }

/-- The field attributer appended by `WithArgs`: serializes `fc.Args` with
`json.Marshal`, discards the error and emits the bytes as the `args`
attribute. -/
def argsAttributer : FieldAttributer :=
  fun fc => [StringAttribute "args" (goString (jsonMarshal fc.Args))]

/-- `WithArgs`: appends the args attributer. -/
def WithArgs : TracerOption :=
  fun c => { c with fieldAttributers := c.fieldAttributers ++ [argsAttributer] }

/-- `OnlyMethods(enabled)`: sets the only-methods flag. -/
def OnlyMethods (enabled : Bool) : TracerOption :=
  fun c => { c with onlyMethods := enabled }

/-- The field attributer installed by `defaultTracer`: the constant
server-identity attribute followed by the field's name. -/
def defaultFieldAttributer : FieldAttributer :=
  fun fc => [StringAttribute "server" "gqlgen", StringAttribute "field" fc.Field.Name]

/-- The operation attributer installed by `defaultTracer`: the constant
server-identity attribute followed by the resolved operation name. -/
def defaultOperationAttributer : OperationAttributer :=
  fun oc => [StringAttribute "server" "gqlgen", StringAttribute "operation" (operationName oc)]

/-- The `Tracer` struct, restricted to the configuration it embeds. -/
structure Tracer where
  config : config

/-- `defaultTracer`: one default field attributer, one default operation
attributer, only-methods flag true. -/
def defaultTracer : Tracer :=
  { config :=
      { fieldAttributers := [defaultFieldAttributer]
        operationAttributers := [defaultOperationAttributer]
        onlyMethods := true } }

/-- Modelled from the spec: the adapter's construction entry point (the
repository's `New` constructor is not under src/; the spec describes it as
applying the caller-supplied option modifiers strictly in order to the
default configuration). -/
def New (opts : List TracerOption) : Tracer :=
  { config := opts.foldl (fun c opt => opt c) defaultTracer.config }

/-- Syntactic enumeration of the package's built-in option modifiers, used to
quantify over arbitrary sequences of applied options. -/
inductive OptionSpec where
  | fieldAttrs (attributers : List FieldAttributer)
  | operationAttrs (attributers : List OperationAttributer)
  | dataDog
  | rawQuery
  | withVars
  | args
  | only (enabled : Bool)

/-- The option denoted by an `OptionSpec`. -/
def OptionSpec.toOption : OptionSpec → TracerOption
  | .fieldAttrs attributers => WithFieldAttributes attributers
  | .operationAttrs attributers => WithOperationAttributes attributers
  | .dataDog => WithDataDog
  | .rawQuery => WithRawQuery
  | .withVars => WithVariables
  | .args => WithArgs
  | .only enabled => OnlyMethods enabled

/-- Applying a sequence of options to a configuration, in order. -/
def applyOptions (opts : List OptionSpec) (c : config) : config :=
  opts.foldl (fun c o => o.toOption c) c

/-- The argument of the last only-methods toggle in a sequence of options,
when one occurs. -/
def lastToggle : List OptionSpec → Option Bool
  | [] => none
  | o :: rest =>
    match lastToggle rest with
    | some b => some b
    | none =>
      match o with
      | .only b => some b
      | _ => none

/-- Which single component of the configuration an option modifies. -/
inductive ModKind where
  | fieldMod
  | opMod
  | flagMod
deriving DecidableEq

/-- Classification of each built-in option by the component it modifies. -/
def OptionSpec.kind : OptionSpec → ModKind
  | .fieldAttrs _ => .fieldMod
  | .args => .fieldMod
  | .operationAttrs _ => .opMod
  | .dataDog => .opMod
  | .rawQuery => .opMod
  | .withVars => .opMod
  | .only _ => .flagMod

/-! ## Helper lemmas -/

/-- The append-accumulating fold of the composers equals the flat
concatenation of each producer's output. -/
theorem foldl_append_eq_join {α β : Type} (l : List α) (f : α → List β) (acc : List β) :
    l.foldl (fun a x => a ++ f x) acc = acc ++ (l.map f).flatten := by
  induction l generalizing acc with
  | nil => simp
  | cons x xs ih => simp [List.foldl, ih]

/-- The only-methods flag after applying a sequence of options is the argument
of the last toggle in the sequence, or the incoming flag when no toggle
occurs. -/
theorem applyOptions_onlyMethods (opts : List OptionSpec) (c : config) :
    (applyOptions opts c).onlyMethods = (lastToggle opts).getD c.onlyMethods := by
  induction opts generalizing c with
  | nil => rfl
  | cons o rest ih =>
    have step : applyOptions (o :: rest) c = applyOptions rest (o.toOption c) := rfl
    rw [step, ih]
    cases hlt : lastToggle rest with
    | some b => simp [lastToggle, hlt]
    | none =>
      cases o with
      | fieldAttrs attributers =>
        simp [lastToggle, hlt, OptionSpec.toOption, WithFieldAttributes]
      | operationAttrs attributers =>
        simp [lastToggle, hlt, OptionSpec.toOption, WithOperationAttributes]
      | dataDog => simp [lastToggle, hlt, OptionSpec.toOption, WithDataDog]
      | rawQuery => simp [lastToggle, hlt, OptionSpec.toOption, WithRawQuery]
      | withVars => simp [lastToggle, hlt, OptionSpec.toOption, WithVariables]
      | args => simp [lastToggle, hlt, OptionSpec.toOption, WithArgs]
      | only b => simp [lastToggle, hlt, OptionSpec.toOption, OnlyMethods]

/-! ## Claims -/

/-- Claim C1: `operationName` follows the ordered fallback chain in which the
first non-empty result wins: a present node's non-empty explicit name is
returned; otherwise a present node's non-empty operation-kind string is
returned; with no node the raw operation-name field is returned (which may
itself be empty). -/
theorem operationName_fallback_chain (ctx : OperationContext) :
    (∀ op, ctx.Operation = some op → op.Name ≠ "" → operationName ctx = op.Name) ∧
    (∀ op, ctx.Operation = some op → op.Name = "" → op.Operation ≠ "" →
      operationName ctx = op.Operation) ∧
    (ctx.Operation = none → operationName ctx = ctx.OperationName) := by
  refine ⟨?_, ?_, ?_⟩
  · intro op h hne
    simp [operationName, h, hne]
  · intro op h hname hkind
    simp [operationName, h, hname, hkind]
  · intro h
    simp [operationName, h]

/-- Witness for C1: the four worked examples. A node named "GetUser" yields
"GetUser"; a node with empty name and kind "mutation" yields "mutation"; no
node with raw name "Ping" yields "Ping"; no node and empty raw name yields
the empty string. -/
theorem operationName_fallback_chain_examples :
    operationName ⟨"", "", ⟨none⟩, some ⟨"GetUser", "query"⟩⟩ = "GetUser" ∧
    operationName ⟨"", "", ⟨none⟩, some ⟨"", "mutation"⟩⟩ = "mutation" ∧
    operationName ⟨"Ping", "", ⟨none⟩, none⟩ = "Ping" ∧
    operationName ⟨"", "", ⟨none⟩, none⟩ = "" := by
  refine ⟨?_, ?_, ?_, ?_⟩
  · exact (operationName_fallback_chain _).1 ⟨"GetUser", "query"⟩ rfl (by decide)
  · exact (operationName_fallback_chain _).2.1 ⟨"", "mutation"⟩ rfl rfl (by decide)
  · exact (operationName_fallback_chain _).2.2 rfl
  · exact (operationName_fallback_chain _).2.2 rfl

/-- Claim C2: for every configuration, the field-attribute composer returns
exactly the concatenation of each registered field producer's output in
registration order, and likewise the operation-attribute composer over the
operation producers. -/
theorem attributes_are_ordered_concatenation (c : config)
    (fctx : FieldContext) (octx : OperationContext) :
    c.fieldAttributes fctx = (c.fieldAttributers.map (fun p => p fctx)).flatten ∧
    c.operationAttributes octx = (c.operationAttributers.map (fun p => p octx)).flatten := by
  constructor
  · simp [config.fieldAttributes, foldl_append_eq_join]
  · simp [config.operationAttributes, foldl_append_eq_join]

/-- Claim C3: the producers appended by `WithVariables` and `WithArgs` never
fail: each option appends exactly one producer, the producer always returns a
single well-formed attribute with key "variables" (resp. "args"), and when
`json.Marshal` errors the attribute's value is the empty string; no error
reaches the composer. -/
theorem serializing_producers_never_fail (c : config)
    (oc : OperationContext) (fc : FieldContext) :
    (WithVariables c).operationAttributers = c.operationAttributers ++ [variablesAttributer] ∧
    (WithArgs c).fieldAttributers = c.fieldAttributers ++ [argsAttributer] ∧
    variablesAttributer oc = [StringAttribute "variables" (goString (jsonMarshal oc.Variables))] ∧
    argsAttributer fc = [StringAttribute "args" (goString (jsonMarshal fc.Args))] ∧
    (jsonMarshal oc.Variables = none →
      variablesAttributer oc = [StringAttribute "variables" ""]) ∧
    (jsonMarshal fc.Args = none → argsAttributer fc = [StringAttribute "args" ""]) := by
  refine ⟨rfl, rfl, rfl, rfl, ?_, ?_⟩
  · intro h
    simp [variablesAttributer, h, goString]
  · intro h
    simp [argsAttributer, h, goString]

/-- Witness for C3: on contexts whose variables (resp. args) cannot be
JSON-encoded, the producers return the single attribute with an empty value. -/
theorem serializing_producers_never_fail_on_bad_value :
    variablesAttributer ⟨"", "", ⟨none⟩, none⟩ = [StringAttribute "variables" ""] ∧
    argsAttributer ⟨⟨"f"⟩, ⟨none⟩⟩ = [StringAttribute "args" ""] := by
  constructor
  · exact (serializing_producers_never_fail defaultTracer.config
      ⟨"", "", ⟨none⟩, none⟩ ⟨⟨"f"⟩, ⟨none⟩⟩).2.2.2.2.1 rfl
  · exact (serializing_producers_never_fail defaultTracer.config
      ⟨"", "", ⟨none⟩, none⟩ ⟨⟨"f"⟩, ⟨none⟩⟩).2.2.2.2.2 rfl

/-- Claim C4: on every field context, the default configuration's
field-attribute computation returns exactly two attributes: the constant
server-identity pair first, then the field's name under key "field". -/
theorem default_field_attributes (fc : FieldContext) :
    defaultTracer.config.fieldAttributes fc =
      [StringAttribute "server" "gqlgen", StringAttribute "field" fc.Field.Name] := by
  simp [defaultTracer, config.fieldAttributes, defaultFieldAttributer]

/-- Claim C5: on every operation context, the default configuration's
operation-attribute computation returns exactly two attributes: the constant
server-identity pair first, then the resolved operation name under key
"operation". -/
theorem default_operation_attributes (oc : OperationContext) :
    defaultTracer.config.operationAttributes oc =
      [StringAttribute "server" "gqlgen", StringAttribute "operation" (operationName oc)] := by
  simp [defaultTracer, config.operationAttributes, defaultOperationAttributer]

/-- Claim C6: over any sequence of option modifiers, the resulting
configuration's only-methods flag equals the argument of the last-applied
toggle, regardless of earlier toggles or interleaved other options. -/
theorem onlyMethods_last_toggle_wins (opts : List OptionSpec) (c : config) (b : Bool)
    (h : lastToggle opts = some b) :
    (applyOptions opts c).onlyMethods = b := by
  rw [applyOptions_onlyMethods, h]
  rfl

/-- Witness for C6: toggling false, interleaving other options, then toggling
true leaves the flag true. -/
theorem onlyMethods_last_toggle_wins_example :
    (applyOptions
      [OptionSpec.only false, OptionSpec.args, OptionSpec.only true, OptionSpec.dataDog]
      defaultTracer.config).onlyMethods = true :=
  onlyMethods_last_toggle_wins
    [OptionSpec.only false, OptionSpec.args, OptionSpec.only true, OptionSpec.dataDog]
    defaultTracer.config true rfl

/-- Claim C7: constructing the adapter with zero options yields exactly the
default configuration: one field producer, one operation producer, the
only-methods flag true, and the same observable attribute outputs on every
context. -/
theorem new_without_options_is_default :
    (New []).config = defaultTracer.config ∧
    (New []).config.fieldAttributers.length = 1 ∧
    (New []).config.operationAttributers.length = 1 ∧
    (New []).config.onlyMethods = true ∧
    (∀ fc : FieldContext,
      (New []).config.fieldAttributes fc = defaultTracer.config.fieldAttributes fc) ∧
    (∀ oc : OperationContext,
      (New []).config.operationAttributes oc = defaultTracer.config.operationAttributes oc) :=
  ⟨rfl, rfl, rfl, rfl, fun _ => rfl, fun _ => rfl⟩

/-- Claim C8: every option modifier changes exactly one component of the
configuration: field-scope options only append to the field-producer list,
operation-scope options only append to the operation-producer list, and the
only-methods toggle only sets the flag; appends extend the prior list on the
right, never removing or reordering earlier producers. -/
theorem option_single_component_frame (o : OptionSpec) (c : config) :
    (o.kind = ModKind.fieldMod →
      ∃ ext, o.toOption c = { c with fieldAttributers := c.fieldAttributers ++ ext }) ∧
    (o.kind = ModKind.opMod →
      ∃ ext, o.toOption c = { c with operationAttributers := c.operationAttributers ++ ext }) ∧
    (∀ b, o = OptionSpec.only b → o.toOption c = { c with onlyMethods := b }) := by
  cases o with
  | fieldAttrs attributers =>
    exact ⟨fun _ => ⟨attributers, rfl⟩, fun h => ModKind.noConfusion h,
      fun b h => OptionSpec.noConfusion h⟩
  | operationAttrs attributers =>
    exact ⟨fun h => ModKind.noConfusion h, fun _ => ⟨attributers, rfl⟩,
      fun b h => OptionSpec.noConfusion h⟩
  | dataDog =>
    exact ⟨fun h => ModKind.noConfusion h, fun _ => ⟨[dataDogAttributer], rfl⟩,
      fun b h => OptionSpec.noConfusion h⟩
  | rawQuery =>
    exact ⟨fun h => ModKind.noConfusion h, fun _ => ⟨[rawQueryAttributer], rfl⟩,
      fun b h => OptionSpec.noConfusion h⟩
  | withVars =>
    exact ⟨fun h => ModKind.noConfusion h, fun _ => ⟨[variablesAttributer], rfl⟩,
      fun b h => OptionSpec.noConfusion h⟩
  | args =>
    exact ⟨fun _ => ⟨[argsAttributer], rfl⟩, fun h => ModKind.noConfusion h,
      fun b h => OptionSpec.noConfusion h⟩
  | only b =>
    refine ⟨fun h => ModKind.noConfusion h, fun h => ModKind.noConfusion h, ?_⟩
    intro b' h
    injection h with hb
    subst hb
    rfl

/-- Witness for C8: the toggle applied to the default configuration sets only
the flag. -/
theorem option_single_component_frame_example :
    OptionSpec.toOption (OptionSpec.only false) defaultTracer.config =
      { defaultTracer.config with onlyMethods := false } :=
  (option_single_component_frame (OptionSpec.only false) defaultTracer.config).2.2 false rfl

/-- Claim C9: when a parsed operation node is present but both its explicit
name and its operation-kind string are empty, `operationName` skips the kind
step and returns the context's raw operation-name field. -/
theorem operationName_empty_kind_falls_through (ctx : OperationContext)
    (op : OperationDefinition) (h : ctx.Operation = some op)
    (hname : op.Name = "") (hkind : op.Operation = "") :
    operationName ctx = ctx.OperationName := by
  simp [operationName, h, hname, hkind]

/-- Witness for C9: a node with empty name and empty kind falls through to the
raw name "Raw". -/
theorem operationName_empty_kind_falls_through_example :
    operationName ⟨"Raw", "", ⟨none⟩, some ⟨"", ""⟩⟩ = "Raw" :=
  operationName_empty_kind_falls_through ⟨"Raw", "", ⟨none⟩, some ⟨"", ""⟩⟩
    ⟨"", ""⟩ rfl rfl rfl

/-- Claim C10: the composers never modify the configuration and are
deterministic. The Go methods take the receiver by value and assign to no
receiver field or global, so their faithful embedding is a pure function of
the configuration and the context: the configuration is unchanged by a call
and repeated calls agree. Beyond that purity, each composer's output depends
only on its own producer list: two configurations with the same field
(resp. operation) producers yield the same field (resp. operation)
attributes, whatever their other components. -/
theorem attribute_computation_reads_only_producers (c c' : config)
    (fc : FieldContext) (oc : OperationContext) :
    (c.fieldAttributers = c'.fieldAttributers →
      c.fieldAttributes fc = c'.fieldAttributes fc) ∧
    (c.operationAttributers = c'.operationAttributers →
      c.operationAttributes oc = c'.operationAttributes oc) := by
  constructor
  · intro h
    simp [config.fieldAttributes, h]
  · intro h
    simp [config.operationAttributes, h]

/-- Witness for C10: two configurations sharing the field-producer list but
differing in the operation-producer list and the flag produce the same field
attributes. -/
theorem attribute_computation_reads_only_producers_example :
    config.fieldAttributes ⟨[defaultFieldAttributer], [], true⟩ ⟨⟨"f"⟩, ⟨none⟩⟩ =
    config.fieldAttributes
      ⟨[defaultFieldAttributer], [defaultOperationAttributer], false⟩ ⟨⟨"f"⟩, ⟨none⟩⟩ :=
  (attribute_computation_reads_only_producers
    ⟨[defaultFieldAttributer], [], true⟩
    ⟨[defaultFieldAttributer], [defaultOperationAttributer], false⟩
    ⟨⟨"f"⟩, ⟨none⟩⟩ ⟨"", "", ⟨none⟩, none⟩).1 rfl

end Gqlopencensus
